import Mathlib

/-!
Shallow embedding of the hexi tree-walk interpreter (gosulja/hexi):
lexer (`src/lexer.rs`), parser (`src/parser.rs`) and evaluator
(`src/interpreter.rs`), together with theorems settling the claims
about the natural-language specification.

Modelling conventions:
* Rust `f64` numbers are modelled by exact rationals `ℚ`.  Every claim
  settled below depends only on exact comparisons (`r == 0.0`, integral
  indices) and on which arithmetic operation the code performs, never on
  rounding, so the rational model is adequate for them.
* `HashMap`/`HashSet` are modelled by insertion-ordered association
  lists with replace-on-insert, which is observationally identical for
  every operation the claims exercise.
* Fallible Rust functions returning `Result<T, String>` become
  `Except String T`; `&mut self` receivers become explicit state
  passing.  Recursion through the AST / token stream is made structural
  with a fuel parameter; fuel only bounds the nesting depth, and all
  theorems quantify over or instantiate sufficient fuel.
-/

namespace Hexi

/-- Token kinds, from `TokenType` in `src/lexer.rs`.  The enum in the
`lexer.rs` snapshot stops at `Eof`; the four extra kinds `includeKw`,
`lbracket`, `rbracket` and `dot` are the variants that `src/parser.rs`
additionally dispatches on (`TokenType::Include`, `LBracket`, `RBracket`,
`Dot`).  The embedded lexer, following `lexer.rs` exactly, never emits
those four. -/
inductive TokenType where
  | ident | number | string | lparen | rparen | comma
  | dblEquals | lt | gt | gte | lte | neq
  | equals | semi | val | dblColon | lbrace | rbrace | colon
  | add | sub | mul | div | mod
  | ifKw | elseKw | eof
  | includeKw | lbracket | rbracket | dot
deriving DecidableEq, Repr

/-- A lexical token: kind plus lexeme (`Token` in `src/lexer.rs`). -/
structure Token where
  type : TokenType
  lexeme : String
deriving DecidableEq, Repr

/-- Collection keys, from `CKey` in `src/interpreter.rs`. -/
inductive CKey where
  | index (i : Nat)
  | string (s : String)
  | number (s : String)
deriving DecidableEq, Repr

mutual
/-- Runtime values, from `Value` in `src/interpreter.rs`. -/
inductive Value where
  | num (n : ℚ)
  | str (s : String)
  | bool (b : Bool)
  | collection (c : CValue)
  | nil

/-- The unified array/map collection, from `CValue` in
`src/interpreter.rs`: a key-value map (modelled as an insertion-ordered
association list) plus the positional `size` counter. -/
inductive CValue where
  | mk (entries : List (CKey × Value)) (size : Nat)
end

/-- Field accessor for the `entries` map of a `CValue`. -/
def CValue.entries : CValue → List (CKey × Value)
  | .mk es _ => es

/-- Field accessor for the `size` counter of a `CValue`. -/
def CValue.size : CValue → Nat
  | .mk _ sz => sz

/-- Association-list lookup, modelling `HashMap::get`. -/
def alLookup (k : CKey) : List (CKey × Value) → Option Value
  | [] => none
  | (k₁, v₁) :: rest => if k₁ = k then some v₁ else alLookup k rest

/-- Association-list insert with replacement, modelling `HashMap::insert`. -/
def alInsert (k : CKey) (v : Value) : List (CKey × Value) → List (CKey × Value)
  | [] => [(k, v)]
  | (k₁, v₁) :: rest => if k₁ = k then (k, v) :: rest else (k₁, v₁) :: alInsert k v rest

/-- Association-list removal, modelling `HashMap::remove` (returns the
removed value, if any, with the remaining map). -/
def alRemove (k : CKey) : List (CKey × Value) → Option Value × List (CKey × Value)
  | [] => (none, [])
  | (k₁, v₁) :: rest =>
    if k₁ = k then (some v₁, rest)
    else
      let (r, rest') := alRemove k rest
      (r, (k₁, v₁) :: rest')

/-- The largest `usize` value on the 64-bit targets the interpreter runs on. -/
def usizeMax : Nat := 2 ^ 64 - 1

/-- Rust's saturating-truncating cast `f64 as usize` (`*n as usize` in
`src/interpreter.rs`): truncate toward zero, clamp below at 0 and above
at `usize::MAX`. -/
def f64ToUsize (q : ℚ) : Nat := min q.floor.toNat usizeMax

/-- Truncation toward zero of a rational, the counterpart of casting the
quotient in Rust's `f64` remainder. -/
def ratTrunc (q : ℚ) : Int := if q < 0 then -((-q).floor) else q.floor

/-- Rust's `f64 % f64` (`fmod`): `l - r * trunc(l / r)`; only applied
when the interpreter has already ruled out `r == 0.0`. -/
def ratFmod (a b : ℚ) : ℚ := a - b * (ratTrunc (a / b) : ℚ)

/-- Decimal text of an `f64` used as a collection key
(`n.to_string()` in `exec_collection`): whole numbers print without a
fractional part.  The claims only depend on `CKey.number` being a
different constructor from `CKey.index`, never on this text. -/
def numKeyStr (q : ℚ) : String := if q.den = 1 then toString q.num else toString q

/-- Fresh empty collection (`CValue::new`). -/
def CValue.new : CValue := .mk [] 0

/-- Collection insert (`CValue::insert`): inserting at `Index(i)` with
`i >= size` grows `size` to `i + 1`; other keys leave `size` alone. -/
def CValue.insert (c : CValue) (k : CKey) (v : Value) : CValue :=
  let sz := match k with
    | .index i => if i ≥ c.size then i + 1 else c.size
    | _ => c.size
  .mk (alInsert k v c.entries) sz

/-- Collection append (`CValue::push`): store at `Index(size)` and bump
`size`. -/
def CValue.push (c : CValue) (v : Value) : CValue :=
  .mk (alInsert (.index c.size) v c.entries) (c.size + 1)

/-- Collection pop (`CValue::pop`): remove and return the entry at
`Index(size - 1)`, or `none` when `size == 0`. -/
def CValue.pop (c : CValue) : Option Value × CValue :=
  if c.size = 0 then (none, c)
  else
    let sz := c.size - 1
    let (r, es) := alRemove (.index sz) c.entries
    (r, .mk es sz)

/-- Keyed lookup (`CValue::get`). -/
def CValue.get (c : CValue) (k : CKey) : Option Value := alLookup k c.entries

/-- Positional lookup (`CValue::get_by_index`). -/
def CValue.getByIndex (c : CValue) (i : Nat) : Option Value := alLookup (.index i) c.entries

/-- String-keyed lookup (`CValue::get_by_string`). -/
def CValue.getByString (c : CValue) (s : String) : Option Value :=
  alLookup (.string s) c.entries

/-- Array-likeness (`CValue::is_array_like`): positive `size`, or every
key is an `Index` key. -/
def CValue.isArrayLike (c : CValue) : Bool :=
  c.size > 0 || c.entries.all (fun kv => match kv.1 with | .index _ => true | _ => false)

/-- Collection length (`CValue::len`): `size` for array-like
collections, entry count otherwise. -/
def CValue.len (c : CValue) : Nat :=
  if c.isArrayLike then c.size else c.entries.length

/-- Runtime type name (`Value::type_name`). -/
def Value.typeName : Value → String
  | .num _ => "number"
  | .str _ => "string"
  | .bool _ => "bool"
  | .collection _ => "collection"
  | .nil => "nil"

/-- Truthiness (`Value::is_truthy`): `Bool(false)` and `Nil` are falsy,
a collection with an empty entry map is falsy, everything else truthy. -/
def Value.isTruthy : Value → Bool
  | .bool false => false
  | .nil => false
  | .collection c => if c.entries.isEmpty then false else true
  | _ => true

mutual
/-- Structural equality of values, modelling the derived `PartialEq`
for `Value`.  Rust compares collection entry maps as unordered maps;
the list model compares them in insertion order, which agrees whenever
the two maps were built by the same operation sequence (no claim
compares collections at all). -/
def valueEq : Value → Value → Bool
  | .num a, .num b => a = b
  | .str a, .str b => a = b
  | .bool a, .bool b => a = b
  | .nil, .nil => true
  | .collection a, .collection b => cvalueEq a b
  | _, _ => false

/-- Structural equality of collections (derived `PartialEq` for `CValue`). -/
def cvalueEq : CValue → CValue → Bool
  | .mk es₁ sz₁, .mk es₂ sz₂ => entriesEq es₁ es₂ && sz₁ = sz₂

/-- Pointwise equality of entry lists. -/
def entriesEq : List (CKey × Value) → List (CKey × Value) → Bool
  | [], [] => true
  | (k₁, v₁) :: r₁, (k₂, v₂) :: r₂ => k₁ = k₂ && valueEq v₁ v₂ && entriesEq r₁ r₂
  | _, _ => false
end

/-- Total-order comparison on rationals; `f64::partial_cmp` restricted
to the non-NaN values the rational model represents. -/
def ratCompare (a b : ℚ) : Ordering :=
  if a < b then .lt else if b < a then .gt else .eq

/-- Partial comparison of values (`impl PartialOrd for Value`): defined
only within the `Number`, `String` and `Bool` variants. -/
def Value.partialCmp : Value → Value → Option Ordering
  | .num a, .num b => some (ratCompare a b)
  | .str a, .str b => some (compare a b)
  | .bool a, .bool b => some (compare a b)
  | _, _ => none

/-- Rust `PartialOrd::lt` as used by `exec_binary_op` on values. -/
def Value.ltOp (a b : Value) : Bool :=
  match Value.partialCmp a b with
  | some .lt => true
  | _ => false

/-- Rust `PartialOrd::gt` on values. -/
def Value.gtOp (a b : Value) : Bool :=
  match Value.partialCmp a b with
  | some .gt => true
  | _ => false

/-- Rust `PartialOrd::le` on values. -/
def Value.leOp (a b : Value) : Bool :=
  match Value.partialCmp a b with
  | some .lt => true
  | some .eq => true
  | _ => false

/-- Rust `PartialOrd::ge` on values. -/
def Value.geOp (a b : Value) : Bool :=
  match Value.partialCmp a b with
  | some .gt => true
  | some .eq => true
  | _ => false

/-- Rust `Debug` text of a token kind, used only inside error strings. -/
def TokenType.debugStr : TokenType → String
  | .ident => "Ident" | .number => "Number" | .string => "String"
  | .lparen => "LParen" | .rparen => "RParen" | .comma => "Comma"
  | .dblEquals => "DblEquals" | .lt => "Lt" | .gt => "Gt"
  | .gte => "Gte" | .lte => "Lte" | .neq => "Neq"
  | .equals => "Equals" | .semi => "Semi" | .val => "Val"
  | .dblColon => "DblColon" | .lbrace => "LBrace" | .rbrace => "RBrace"
  | .colon => "Colon" | .add => "Add" | .sub => "Sub" | .mul => "Mul"
  | .div => "Div" | .mod => "Mod" | .ifKw => "If" | .elseKw => "Else"
  | .eof => "Eof" | .includeKw => "Include" | .lbracket => "LBracket"
  | .rbracket => "RBracket" | .dot => "Dot"

/-- Method dispatch on a receiver value
(`impl Method for Value :: call_method` in `src/interpreter.rs`).
The `&mut self` receiver is modelled by returning the (possibly
mutated) receiver next to the `Result`. -/
def Value.callMethod (v : Value) (method : String) (args : List Value) :
    Except String Value × Value :=
  match v with
  | .collection c =>
    match method with
    | "push" =>
      match args with
      | [a] => (.ok .nil, .collection (c.push a))
      | _ => (.error ("push method on array expects 1 argument, got " ++ toString args.length), v)
    | "pop" =>
      match args with
      | [] =>
        let (r, c') := c.pop
        (.ok (r.getD .nil), .collection c')
      | _ => (.error ("pop method on array expects no argument, got " ++ toString args.length), v)
    | "size" =>
      match args with
      | [] => (.ok (.num (c.len : ℚ)), v)
      | _ => (.error ("size method on array expects no argument, got " ++ toString args.length), v)
    | "get" =>
      match args with
      | [k] =>
        match k with
        | .num n => (.ok ((c.get (.index (f64ToUsize n))).getD .nil), v)
        | .str s => (.ok ((c.get (.string s)).getD .nil), v)
        | _ => (.error "collection key must be a number or string", v)
      | _ => (.error ("get method expects 1 argument, got " ++ toString args.length), v)
    | "insert" =>
      match args with
      | [k, value] =>
        match k with
        | .num n =>
          let idx := f64ToUsize n
          if c.isArrayLike && idx > c.size then
            (.error ("index " ++ toString idx ++ " is out of bounds"), v)
          else
            (.ok .nil, .collection (c.insert (.index idx) value))
        | .str s => (.ok .nil, .collection (c.insert (.string s) value))
        | _ => (.error "insert key must be a number or string", v)
      | _ => (.error ("insert method expects 2 arguments, got " ++ toString args.length), v)
    | _ => (.error ("unknown method '" ++ method ++ "' for array."), v)
  | .str s =>
    match method with
    | "len" =>
      match args with
      | [] => (.ok (.num (s.utf8ByteSize : ℚ)), v)
      | _ => (.error ("len method on string expects no arguments, got " ++ toString args.length), v)
    | _ => (.error ("unknown method '" ++ method ++ "' for string."), v)
  | _ => (.error ("cannot call method '" ++ method ++ "' on \"" ++ v.typeName ++ "\""), v)

mutual
/-- Expression AST, from `Expr` in `src/ast.rs`.  The wrapper structs
(`Call`, `VarDecl`, `Block`, `If`, ...) are flattened into constructor
arguments; a `Block` is its ordered expression list. -/
inductive Expr where
  | ident (name : String)
  | num (n : ℚ)
  | str (s : String)
  | call (module : Option String) (name : String) (args : List Expr)
  | varDecl (name : String) (value : Expr)
  | assign (name : String) (assignee : Expr)
  | binOp (left : Expr) (right : Expr) (op : TokenType)
  | unOp (operand : Expr) (op : TokenType)
  | blockE (exprs : List Expr)
  | ifE (cond : Expr) (thenB : List Expr) (elseB : Option (List Expr))
  | collectionE (entries : List CEntry)
  | idxAccess (object : Expr) (index : Expr)
  | methodCall (object : Expr) (method : String) (args : List Expr)
  | includeE (module : String)
  | fieldAccess (object : Expr) (field : String)

/-- Collection-literal entries, from `CEntry` in `src/ast.rs`. -/
inductive CEntry where
  | indexed (e : Expr)
  | keyed (k : String) (e : Expr)
  | numKeyed (n : ℚ) (e : Expr)
end

/-- Signature of a native function (`type Native` in `src/interpreter.rs`,
`NativeFn` in `src/stdlib/mod.rs`). -/
def NativeFn : Type := List Value → Except String Value

/-- Interpreter state (`struct Interpreter`): native registry, variable
environment and loaded-modules set, each modelled as an insertion-ordered
list. -/
structure Interp where
  natives : List (String × NativeFn)
  vars : List (String × Value)
  loadedModules : List String

/-- String-keyed association-list lookup, modelling `HashMap::get` on
the registries and the environment. -/
def lookupStr (m : List (String × α)) (k : String) : Option α :=
  match m with
  | [] => none
  | (k₁, v₁) :: rest => if k₁ = k then some v₁ else lookupStr rest k

/-- `HashMap::contains_key` on a string-keyed map. -/
def containsStr (m : List (String × α)) (k : String) : Bool :=
  (lookupStr m k).isSome

/-- `HashMap::insert` on a string-keyed map (replace or append). -/
def insertStr (k : String) (v : α) : List (String × α) → List (String × α)
  | [] => [(k, v)]
  | (k₁, v₁) :: rest => if k₁ = k then (k, v) :: rest else (k₁, v₁) :: insertStr k v rest

/-- `HashMap::entry(..).and_modify(..)`: replace the value if the key is
present, leave the map unchanged otherwise. -/
def modifyStr (k : String) (v : α) : List (String × α) → List (String × α)
  | [] => []
  | (k₁, v₁) :: rest => if k₁ = k then (k, v) :: rest else (k₁, v₁) :: modifyStr k v rest

/-- `HashSet::insert` on the loaded-modules set. -/
def insertSetStr (k : String) (s : List String) : List String :=
  if s.contains k then s else s ++ [k]

/-- The optional module registry (`REGISTRY_OPTIONAL`).  The snapshot's
`src/stdlib/mod.rs` defines only `REGISTRY_STD`, while `interpreter.rs`
imports `REGISTRY_OPTIONAL`; its definition is missing from the sources.
Modelled from the spec: a static table mapping an optional module's name
to its (function name, native function) pairs, consulted only by
`include`.  No claim depends on its contents, so it is left empty. -/
def REGISTRY_OPTIONAL : List (String × List (String × NativeFn)) := []

/-- Call-signature construction (`Call::signature` in `src/ast.rs`):
`module_name` when module-qualified, else the bare name. -/
def callSignature (module : Option String) (name : String) : String :=
  match module with
  | some m => m ++ "_" ++ name
  | none => name

/-- Module loading (`Interpreter::load_module`): no-op when already
loaded; otherwise find the module in the optional registry, insert its
functions under `module_function` signatures and record it loaded. -/
def loadModule (st : Interp) (modName : String) : Except String Value × Interp :=
  if st.loadedModules.contains modName then (.ok .nil, st)
  else
    match lookupStr REGISTRY_OPTIONAL modName with
    | some funcs =>
      let natives := funcs.foldl (fun acc nf => insertStr (modName ++ "_" ++ nf.1) nf.2 acc) st.natives
      (.ok .nil, { st with natives := natives, loadedModules := insertSetStr modName st.loadedModules })
    | none => (.error ("module '" ++ modName ++ "' not found"), st)

/-- Index access on already-evaluated object and index values: the
`match col` in `Interpreter::exec_idx_access` (lines 339-350).  A Number
index becomes an `Index` key, a String index a `String` key, anything
else errors; a missing key yields `Nil`. -/
def execIdxAccessVal (col idx : Value) : Except String Value :=
  match col with
  | .collection c =>
    match idx with
    | .num n => .ok ((c.get (.index (f64ToUsize n))).getD .nil)
    | .str s => .ok ((c.get (.string s)).getD .nil)
    | _ => .error "collection index must be a number or string"
  | _ => .error ("cannot index into " ++ col.typeName)

/-- Field access on an already-evaluated object value: the match in
`Interpreter::exec_fa` (lines 281-287).  A missing string key is an
"undefined field" error. -/
def execFaVal (ovalue : Value) (field : String) : Except String Value :=
  match ovalue with
  | .collection c =>
    match c.getByString field with
    | some x => .ok x
    | none => .error ("undefined field '" ++ field ++ "'")
  | _ => .error ("cannot access field '" ++ field ++ "' on non object")

/-- Binary operator on already-evaluated operands: the match in
`Interpreter::exec_binary_op` (lines 435-488).  Division and modulo
check `r == 0.0` before performing the operation. -/
def execBinaryOpVal (op : TokenType) (left right : Value) : Except String Value :=
  match op with
  | .dblEquals => .ok (.bool (valueEq left right))
  | .lt => .ok (.bool (Value.ltOp left right))
  | .gt => .ok (.bool (Value.gtOp left right))
  | .lte => .ok (.bool (Value.leOp left right))
  | .gte => .ok (.bool (Value.geOp left right))
  | .neq => .ok (.bool (!valueEq left right))
  | .add | .sub | .mul | .div | .mod =>
    match left, right with
    | .num l, .num r =>
      match op with
      | .add => .ok (.num (l + r))
      | .sub => .ok (.num (l - r))
      | .mul => .ok (.num (l * r))
      | .div => if r = 0 then .error "division by zero" else .ok (.num (l / r))
      | .mod => if r = 0 then .error "modulo by zero" else .ok (.num (ratFmod l r))
      | _ => .error "unreachable"
    | _, _ => .error "arithmetic operations can only be performed on numbers"
  | _ => .error ("unsupported binary operator " ++ op.debugStr)

/-- Unary operator on an already-evaluated operand
(`Interpreter::exec_unary_op`). -/
def execUnaryOpVal (op : TokenType) (operand : Value) : Except String Value :=
  match op with
  | .sub =>
    match operand with
    | .num n => .ok (.num (-n))
    | _ => .error "negate unary operator only supported on numbers"
  | _ => .error ("unsupported unary operator " ++ op.debugStr)

/-- Left-to-right evaluation of an argument list (the `for a in args`
loops in `exec_call` / `exec_method_call`), parameterised by the
evaluation function for one expression.  An error aborts the loop,
keeping the state mutations made so far. -/
def evalArgsWith (ev : Interp → Expr → Except String Value × Interp) :
    Interp → List Expr → Except String (List Value) × Interp
  | st, [] => (.ok [], st)
  | st, e :: es =>
    match ev st e with
    | (.error err, st') => (.error err, st')
    | (.ok v, st') =>
      match evalArgsWith ev st' es with
      | (.ok vs, st'') => (.ok (v :: vs), st'')
      | (.error err, st'') => (.error err, st'')

/-- Block evaluation (`Interpreter::exec_block`): evaluate every
expression in order, returning the last value (`Nil` for an empty
block); the first error aborts the block. -/
def execBlockWith (ev : Interp → Expr → Except String Value × Interp) :
    Interp → List Expr → Except String Value × Interp
  | st, [] => (.ok .nil, st)
  | st, e :: es =>
    match ev st e with
    | (.error err, st') => (.error err, st')
    | (.ok v, st') =>
      match es with
      | [] => (.ok v, st')
      | _ => execBlockWith ev st' es

/-- Collection-literal construction loop (`Interpreter::exec_collection`):
indexed entries take consecutive `Index` keys from a running counter,
keyed entries take `String` keys, number-keyed entries take
`Number`-text keys.  Returns the built collection with the final
counter. -/
def evalEntriesWith (ev : Interp → Expr → Except String Value × Interp) :
    Interp → List CEntry → CValue → Nat → Except String (CValue × Nat) × Interp
  | st, [], c, idx => (.ok (c, idx), st)
  | st, entry :: rest, c, idx =>
    match entry with
    | .indexed ex =>
      match ev st ex with
      | (.error err, st') => (.error err, st')
      | (.ok v, st') => evalEntriesWith ev st' rest (c.insert (.index idx) v) (idx + 1)
    | .keyed k ex =>
      match ev st ex with
      | (.error err, st') => (.error err, st')
      | (.ok v, st') => evalEntriesWith ev st' rest (c.insert (.string k) v) idx
    | .numKeyed n ex =>
      match ev st ex with
      | (.error err, st') => (.error err, st')
      | (.ok v, st') => evalEntriesWith ev st' rest (c.insert (.number (numKeyStr n)) v) idx

/-- The tree-walk evaluator (`Interpreter::evaluate` and its `exec_*`
helpers).  Fuel makes the nested recursion structural; each nesting
level of the tree consumes one unit, so any `fuel` larger than the
expression depth behaves exactly like the Rust recursion. -/
def evaluate : Nat → Interp → Expr → Except String Value × Interp
  | 0, st, _ => (.error "out of fuel", st)
  | fuel + 1, st, e =>
    match e with
    | .num n => (.ok (.num n), st)
    | .str s => (.ok (.str s), st)
    | .ident name =>
      match lookupStr st.vars name with
      | some v => (.ok v, st)
      | none => (.error ("undefined variable or reference '" ++ name ++ "'"), st)
    | .call module name args =>
      match evalArgsWith (evaluate fuel) st args with
      | (.error err, st') => (.error err, st')
      | (.ok vs, st') =>
        match lookupStr st'.natives (callSignature module name) with
        | some f => (f vs, st')
        | none =>
          match lookupStr st'.natives name with
          | some f => (f vs, st')
          | none => (.error ("undefined function '" ++ name ++ "'"), st')
    | .collectionE entries =>
      match evalEntriesWith (evaluate fuel) st entries CValue.new 0 with
      | (.error err, st') => (.error err, st')
      | (.ok (c, idx), st') =>
        (.ok (.collection (if idx > 0 then .mk c.entries idx else c)), st')
    | .idxAccess object index =>
      match evaluate fuel st object with
      | (.error err, st') => (.error err, st')
      | (.ok col, st') =>
        match evaluate fuel st' index with
        | (.error err, st'') => (.error err, st'')
        | (.ok iv, st'') => (execIdxAccessVal col iv, st'')
    | .methodCall object method args =>
      match evalArgsWith (evaluate fuel) st args with
      | (.error err, st') => (.error err, st')
      | (.ok vs, st') =>
        match object with
        | .ident id =>
          match lookupStr st'.vars id with
          | some val =>
            match Value.callMethod val method vs with
            | (.ok r, val') => (.ok r, { st' with vars := insertStr id val' st'.vars })
            | (.error err, _) => (.error err, st')
          | none => (.error ("undefined variable '" ++ id ++ "'"), st')
        | _ =>
          match evaluate fuel st' object with
          | (.error err, st'') => (.error err, st'')
          | (.ok o, st'') => ((Value.callMethod o method vs).1, st'')
    | .varDecl name value =>
      if containsStr st.vars name then
        (.error ("variable '" ++ name ++ "' already defined!"), st)
      else
        match evaluate fuel st value with
        | (.error err, st') => (.error err, st')
        | (.ok v, st') => (.ok .nil, { st' with vars := insertStr name v st'.vars })
    | .assign name assignee =>
      if containsStr st.vars name then
        match evaluate fuel st assignee with
        | (.error err, st') => (.error err, st')
        | (.ok v, st') => (.ok .nil, { st' with vars := modifyStr name v st'.vars })
      else
        (.error ("variable '" ++ name ++ "' not defined!"), st)
    | .binOp left right op =>
      match evaluate fuel st left with
      | (.error err, st') => (.error err, st')
      | (.ok l, st') =>
        match evaluate fuel st' right with
        | (.error err, st'') => (.error err, st'')
        | (.ok r, st'') => (execBinaryOpVal op l r, st'')
    | .unOp operand op =>
      match evaluate fuel st operand with
      | (.error err, st') => (.error err, st')
      | (.ok v, st') => (execUnaryOpVal op v, st')
    | .ifE cond thenB elseB =>
      match evaluate fuel st cond with
      | (.error err, st') => (.error err, st')
      | (.ok cv, st') =>
        if cv.isTruthy then execBlockWith (evaluate fuel) st' thenB
        else
          match elseB with
          | some eb => execBlockWith (evaluate fuel) st' eb
          | none => (.ok .nil, st')
    | .blockE exprs => execBlockWith (evaluate fuel) st exprs
    | .includeE module => loadModule st module
    | .fieldAccess object field =>
      match evaluate fuel st object with
      | (.error err, st') => (.error err, st')
      | (.ok ov, st') => (execFaVal ov field, st')

/-! ### Lexer (`src/lexer.rs`)

The lexer walks the source text by character position.  Character
classification uses the ASCII versions of Rust's Unicode-aware
predicates; every claim involves ASCII input only. -/

/-- Lexer state (`struct Lexer`): source characters and cursor. -/
structure LexState where
  source : List Char
  pos : Nat
deriving DecidableEq

/-- The keyword table built in `Lexer::new` (lines 52-60 of
`src/lexer.rs`): exactly `val`, `if` and `else`.  `include` is absent. -/
def lexerKeywords : List (String × TokenType) :=
  [("val", .val), ("if", .ifKw), ("else", .elseKw)]

/-- Generic lookup in the keyword table (`HashMap::get`). -/
def lookupKeyword (ident : String) : Option TokenType :=
  match lexerKeywords.find? (fun kv => kv.1 = ident) with
  | some kv => some kv.2
  | none => none

/-- Whitespace-skipping loop at the top of `Lexer::next`. -/
def skipWs : Nat → LexState → LexState
  | 0, st => st
  | fuelW + 1, st =>
    match st.source[st.pos]? with
    | some c => if c.isWhitespace then skipWs fuelW { st with pos := st.pos + 1 } else st
    | none => st

/-- End position of the identifier scan loop in
`Lexer::process_identifier`: advance while alphanumeric or `_`. -/
def identEnd (source : List Char) : Nat → Nat → Nat
  | pos, 0 => pos
  | pos, fuelW + 1 =>
    match source[pos]? with
    | some c => if c.isAlphanum || c = '_' then identEnd source (pos + 1) fuelW else pos
    | none => pos

/-- End position of the number scan loop in `Lexer::process_number`:
digits, with at most one `.` that must be followed by a digit. -/
def numEnd (source : List Char) : Nat → Bool → Nat → Nat
  | pos, _, 0 => pos
  | pos, float, fuelW + 1 =>
    match source[pos]? with
    | some c =>
      if c.isDigit then numEnd source (pos + 1) float fuelW
      else if c = '.' && !float &&
          (match source[pos + 1]? with | some n => n.isDigit | none => false) then
        numEnd source (pos + 1) true fuelW
      else pos
    | none => pos

/-- End position of the string scan loop in `Lexer::process_string`:
advance until the opening quote character recurs or input ends. -/
def strEnd (source : List Char) (opening : Char) : Nat → Nat → Nat
  | pos, 0 => pos
  | pos, fuelW + 1 =>
    match source[pos]? with
    | some c => if c = opening then pos else strEnd source opening (pos + 1) fuelW
    | none => pos

/-- Source slice `source[start..stop]` as a string. -/
def sliceStr (source : List Char) (start stop : Nat) : String :=
  String.mk ((source.drop start).take (stop - start))

/-- `Lexer::process_identifier`: scan the identifier, then retag it via
the keyword table if it matches, else emit an `Ident` token. -/
def processIdentifier (st : LexState) : Token × LexState :=
  let start := st.pos
  let stop := identEnd st.source start (st.source.length - start)
  let ident := sliceStr st.source start stop
  let tok :=
    match lookupKeyword ident with
    | some tt => Token.mk tt ident
    | none => Token.mk .ident ident
  (tok, { st with pos := stop })

/-- `Lexer::process_number`. -/
def processNumber (st : LexState) : Token × LexState :=
  let start := st.pos
  let stop := numEnd st.source start false (st.source.length - start)
  (Token.mk .number (sliceStr st.source start stop), { st with pos := stop })

/-- `Lexer::process_string`: the opening quote fixes the closing quote;
content is taken verbatim; the closing quote is consumed if present. -/
def processString (st : LexState) : Token × LexState :=
  match st.source[st.pos]? with
  | some opening =>
    let start := st.pos + 1
    let stop := strEnd st.source opening start (st.source.length - start)
    let strval := sliceStr st.source start stop
    let newPos :=
      match st.source[stop]? with
      | some c => if c = opening then stop + 1 else stop
      | none => stop
    (Token.mk .string strval, { st with pos := newPos })
  | none => (Token.mk .string "", st)

/-- `Lexer::next`: skip whitespace, then dispatch on the current
character; unknown characters (and a lone `!`) are skipped by retrying.
Fuel bounds the retries; any fuel beyond the source length is enough. -/
def lexNext : Nat → LexState → Option Token × LexState
  | 0, st => (none, st)
  | fuelW + 1, st₀ =>
    let st := skipWs st₀.source.length st₀
    match st.source[st.pos]? with
    | none => (none, st)
    | some c =>
      if c.isAlpha || c = '_' then
        let (t, st') := processIdentifier st
        (some t, st')
      else if c.isDigit then
        let (t, st') := processNumber st
        (some t, st')
      else if c = '"' || c = '\'' then
        let (t, st') := processString st
        (some t, st')
      else if c = ';' then (some (Token.mk .semi ";"), { st with pos := st.pos + 1 })
      else if c = '(' then (some (Token.mk .lparen "("), { st with pos := st.pos + 1 })
      else if c = ')' then (some (Token.mk .rparen ")"), { st with pos := st.pos + 1 })
      else if c = '{' then (some (Token.mk .lbrace "\x7b"), { st with pos := st.pos + 1 })
      else if c = '}' then (some (Token.mk .rbrace "\x7d"), { st with pos := st.pos + 1 })
      else if c = ',' then (some (Token.mk .comma ","), { st with pos := st.pos + 1 })
      else if c = '+' then (some (Token.mk .add "+"), { st with pos := st.pos + 1 })
      else if c = '-' then (some (Token.mk .sub "-"), { st with pos := st.pos + 1 })
      else if c = '*' then (some (Token.mk .mul "*"), { st with pos := st.pos + 1 })
      else if c = '/' then (some (Token.mk .div "/"), { st with pos := st.pos + 1 })
      else if c = '%' then (some (Token.mk .mod "%"), { st with pos := st.pos + 1 })
      else if c = ':' then
        if st.source[st.pos + 1]? = some ':' then
          (some (Token.mk .dblColon "::"), { st with pos := st.pos + 2 })
        else (some (Token.mk .colon ":"), { st with pos := st.pos + 1 })
      else if c = '=' then
        if st.source[st.pos + 1]? = some '=' then
          (some (Token.mk .dblEquals "=="), { st with pos := st.pos + 2 })
        else (some (Token.mk .equals "="), { st with pos := st.pos + 1 })
      else if c = '<' then
        if st.source[st.pos + 1]? = some '=' then
          (some (Token.mk .lte "<="), { st with pos := st.pos + 2 })
        else (some (Token.mk .lt "<"), { st with pos := st.pos + 1 })
      else if c = '>' then
        if st.source[st.pos + 1]? = some '=' then
          (some (Token.mk .gte ">="), { st with pos := st.pos + 2 })
        else (some (Token.mk .gt ">"), { st with pos := st.pos + 1 })
      else if c = '!' then
        if st.source[st.pos + 1]? = some '=' then
          (some (Token.mk .neq "!="), { st with pos := st.pos + 2 })
        else lexNext fuelW { st with pos := st.pos + 1 }
      else lexNext fuelW { st with pos := st.pos + 1 }

/-! ### Parser (`src/parser.rs`)

The parser is embedded over the token list it has not yet consumed
(`current` is the head; an empty list is end-of-input, where the Rust
parser's `current` is `None`).  Recursive-descent recursion is made
structural with a fuel parameter; fuel bounds the call depth only. -/

/-- `Parser::check`: does the current token have the given kind?
End-of-input checks equal to `Eof`. -/
def pcheck (ts : List Token) (tt : TokenType) : Bool :=
  match ts with
  | t :: _ => t.type = tt
  | [] => tt = .eof

/-- `Parser::consume`: require the given kind, returning the token and
the rest of the stream, or a descriptive error. -/
def pconsume (ts : List Token) (tt : TokenType) : Except String (Token × List Token) :=
  if pcheck ts tt then
    match ts with
    | t :: rest => .ok (t, rest)
    | [] => .error "unexpected eof"
  else
    .error ("expected " ++ tt.debugStr ++ " but found " ++
      (match ts with
       | t :: _ => "Some(" ++ t.type.debugStr ++ ")"
       | [] => "None"))

/-- The precedence table (`Parser::precedence`): comparisons at 1,
additive at 2, multiplicative at 3, everything else 0. -/
def precedence (tt : TokenType) : Nat :=
  match tt with
  | .dblEquals | .lt | .gt | .lte | .gte | .neq => 1
  | .add | .sub => 2
  | .mul | .div | .mod => 3
  | _ => 0

/-- `Parser::is_binop`. -/
def isBinop (tt : TokenType) : Bool :=
  match tt with
  | .add | .sub | .mul | .div | .mod
  | .dblEquals | .lt | .gt | .lte | .gte | .neq => true
  | _ => false

/-- Decimal digit run as a natural number. -/
def digitsToNat (s : List Char) : Nat :=
  s.foldl (fun acc c => acc * 10 + (c.toNat - '0'.toNat)) 0

/-- Value of a numeric lexeme (`num.parse::<f64>().unwrap()` in
`Parser::parse_number`), for the `digits(.digits)?` strings the lexer
produces; exact where Rust rounds to the nearest double. -/
def strToRat (s : String) : ℚ :=
  match s.splitOn "." with
  | [w] => (digitsToNat w.toList : ℚ)
  | [w, f] => (digitsToNat w.toList : ℚ) + (digitsToNat f.toList : ℚ) / ((10 : ℚ) ^ f.length)
  | _ => 0

/-- `Parser::parse_number`: turn the current (Number) token into a
literal.  The empty-stream arm models the panicking `unwrap`, which the
caller's dispatch makes unreachable. -/
def parseNumber (ts : List Token) : Except String (Expr × List Token) :=
  match ts with
  | t :: rest => .ok (.num (strToRat t.lexeme), rest)
  | [] => .error "unexpected eof"

/-- `Parser::parse_string`. -/
def parseStringLit (ts : List Token) : Except String (Expr × List Token) :=
  match ts with
  | t :: rest => .ok (.str t.lexeme, rest)
  | [] => .error "unexpected eof"

/-- `Parser::parse_include`: `include IDENT`. -/
def parseIncludeE (ts : List Token) : Except String (Expr × List Token) := do
  let (_, ts₁) ← pconsume ts .includeKw
  match ts₁ with
  | t :: rest =>
    if t.type = .ident then .ok (.includeE t.lexeme, rest)
    else .error "expected identifier after 'include'"
  | [] => .error "expected identifier after 'include'"

mutual

/-- `Parser::parse_bin_expr`: parse a postfix expression, then fold in
binary operators via `parseBinLoop`. -/
def parseBinExpr : Nat → Nat → List Token → Except String (Expr × List Token)
  | 0, _, _ => .error "parser out of fuel"
  | fuel + 1, minPrec, ts => do
    let (left, ts₁) ← parsePostfixFn fuel ts
    parseBinLoop fuel minPrec left ts₁
termination_by structural fuelC _ _ => fuelC

/-- The `while` loop of `parse_bin_expr`: consume an operator only when
it is a binary operator whose precedence is at least `minPrec`, parse
the right-hand side at `precedence + 1`, and continue. -/
def parseBinLoop : Nat → Nat → Expr → List Token → Except String (Expr × List Token)
  | 0, _, _, _ => .error "parser out of fuel"
  | fuel + 1, minPrec, left, ts =>
    match ts with
    | [] => .ok (left, [])
    | t :: rest =>
      if isBinop t.type && precedence t.type ≥ minPrec then do
        let (right, ts₁) ← parseBinExpr fuel (precedence t.type + 1) rest
        parseBinLoop fuel minPrec (.binOp left right t.type) ts₁
      else .ok (left, t :: rest)
termination_by structural fuelC _ _ _ => fuelC

/-- `Parser::parse_postfix`: a primary expression followed by a chain of
index accesses, method calls and field accesses. -/
def parsePostfixFn : Nat → List Token → Except String (Expr × List Token)
  | 0, _ => .error "parser out of fuel"
  | fuel + 1, ts => do
    let (e, ts₁) ← parsePrim fuel ts
    parsePostfixLoop fuel e ts₁
termination_by structural fuelC _ => fuelC

/-- The postfix chaining loop of `parse_postfix`. -/
def parsePostfixLoop : Nat → Expr → List Token → Except String (Expr × List Token)
  | 0, _, _ => .error "parser out of fuel"
  | fuel + 1, e, ts =>
    match ts with
    | [] => .ok (e, ts)
    | t :: _ =>
      match t.type with
      | .lbracket => do
        let (_, ts₁) ← pconsume ts .lbracket
        let (idx, ts₂) ← parseBinExpr fuel 0 ts₁
        let (_, ts₃) ← pconsume ts₂ .rbracket
        parsePostfixLoop fuel (.idxAccess e idx) ts₃
      | .dot => do
        let (_, ts₁) ← pconsume ts .dot
        let (methTok, ts₂) ← pconsume ts₁ .ident
        if pcheck ts₂ .lparen then do
          let (_, ts₃) ← pconsume ts₂ .lparen
          let (args, ts₄) ← if pcheck ts₃ .rparen then pure ([], ts₃) else parseArgs fuel ts₃
          let (_, ts₅) ← pconsume ts₄ .rparen
          parsePostfixLoop fuel (.methodCall e methTok.lexeme args) ts₅
        else
          parsePostfixLoop fuel (.fieldAccess e methTok.lexeme) ts₂
      | _ => .ok (e, ts)
termination_by structural fuelC _ _ => fuelC

/-- `Parser::parse_prim`: dispatch on the current token kind. -/
def parsePrim : Nat → List Token → Except String (Expr × List Token)
  | 0, _ => .error "parser out of fuel"
  | fuel + 1, ts =>
    match ts with
    | [] => .error "unexpected eof"
    | t :: _ =>
      match t.type with
      | .includeKw => parseIncludeE ts
      | .sub => parseUnaryE fuel ts
      | .val => parseVarDecl fuel ts
      | .ident => parseIdentifier fuel ts
      | .string => parseStringLit ts
      | .number => parseNumber ts
      | .lparen => parseGrouped fuel ts
      | .lbracket => parseCollectionE fuel ts
      | .lbrace => do
        let (es, ts₁) ← parseBlock fuel ts
        .ok (.blockE es, ts₁)
      | .ifKw => parseIf fuel ts
      | _ => .error ("unexpected token " ++ t.type.debugStr)
termination_by structural fuelC _ => fuelC

/-- `Parser::parse_unary`: the operator token, then a postfix operand. -/
def parseUnaryE : Nat → List Token → Except String (Expr × List Token)
  | 0, _ => .error "parser out of fuel"
  | fuel + 1, ts =>
    match ts with
    | [] => .error "unexpected eof"
    | t :: rest => do
      let (operand, ts₁) ← parsePostfixFn fuel rest
      .ok (.unOp operand t.type, ts₁)
termination_by structural fuelC _ => fuelC

/-- `Parser::parse_grouped`: a parenthesised expression at threshold 0. -/
def parseGrouped : Nat → List Token → Except String (Expr × List Token)
  | 0, _ => .error "parser out of fuel"
  | fuel + 1, ts => do
    let (_, ts₁) ← pconsume ts .lparen
    let (e, ts₂) ← parseBinExpr fuel 0 ts₁
    let (_, ts₃) ← pconsume ts₂ .rparen
    .ok (e, ts₃)
termination_by structural fuelC _ => fuelC

/-- `Parser::parse_identifier`: after an identifier, one token of
lookahead distinguishes module access (`::`), a call (`(`), an
assignment (`=`) and a plain reference. -/
def parseIdentifier : Nat → List Token → Except String (Expr × List Token)
  | 0, _ => .error "parser out of fuel"
  | fuel + 1, ts =>
    match ts with
    | [] => .error "unexpected eof"
    | t :: rest =>
      if pcheck rest .dblColon then do
        let (_, ts₁) ← pconsume rest .dblColon
        let (fnTok, ts₂) ← pconsume ts₁ .ident
        if pcheck ts₂ .lparen then parseModCall fuel t.lexeme fnTok.lexeme ts₂
        else .ok (.ident (t.lexeme ++ "::" ++ fnTok.lexeme), ts₂)
      else if pcheck rest .lparen then parseCall fuel t.lexeme rest
      else if pcheck rest .equals then parseAssignment fuel t.lexeme rest
      else .ok (.ident t.lexeme, rest)
termination_by structural fuelC _ => fuelC

/-- `Parser::parse_call`: argument list in parentheses. -/
def parseCall : Nat → String → List Token → Except String (Expr × List Token)
  | 0, _, _ => .error "parser out of fuel"
  | fuel + 1, name, ts => do
    let (_, ts₁) ← pconsume ts .lparen
    let (args, ts₂) ← if pcheck ts₁ .rparen then pure ([], ts₁) else parseArgs fuel ts₁
    let (_, ts₃) ← pconsume ts₂ .rparen
    .ok (.call none name args, ts₃)
termination_by structural fuelC _ _ => fuelC

/-- `Parser::parse_mod_call`: module-qualified call. -/
def parseModCall : Nat → String → String → List Token → Except String (Expr × List Token)
  | 0, _, _, _ => .error "parser out of fuel"
  | fuel + 1, module, name, ts => do
    let (_, ts₁) ← pconsume ts .lparen
    let (args, ts₂) ← if pcheck ts₁ .rparen then pure ([], ts₁) else parseArgs fuel ts₁
    let (_, ts₃) ← pconsume ts₂ .rparen
    .ok (.call (some module) name args, ts₃)
termination_by structural fuelC _ _ _ => fuelC

/-- `Parser::parse_assignment`: `=` then the assignee at threshold 0. -/
def parseAssignment : Nat → String → List Token → Except String (Expr × List Token)
  | 0, _, _ => .error "parser out of fuel"
  | fuel + 1, name, ts => do
    let (_, ts₁) ← pconsume ts .equals
    let (assignee, ts₂) ← parseBinExpr fuel 0 ts₁
    .ok (.assign name assignee, ts₂)
termination_by structural fuelC _ _ => fuelC

/-- `Parser::parse_var_decl`: `val IDENT = expr`. -/
def parseVarDecl : Nat → List Token → Except String (Expr × List Token)
  | 0, _ => .error "parser out of fuel"
  | fuel + 1, ts => do
    let (_, ts₁) ← pconsume ts .val
    let (nameTok, ts₂) ← pconsume ts₁ .ident
    let (_, ts₃) ← pconsume ts₂ .equals
    let (value, ts₄) ← parseBinExpr fuel 0 ts₃
    .ok (.varDecl nameTok.lexeme value, ts₄)
termination_by structural fuelC _ => fuelC

/-- `Parser::parse_args`: first argument, then `parseArgsLoop`. -/
def parseArgs : Nat → List Token → Except String (List Expr × List Token)
  | 0, _ => .error "parser out of fuel"
  | fuel + 1, ts => do
    let (first, ts₁) ← parseBinExpr fuel 0 ts
    parseArgsLoop fuel [first] ts₁
termination_by structural fuelC _ => fuelC

/-- The comma loop of `parse_args`, tolerating a trailing comma. -/
def parseArgsLoop : Nat → List Expr → List Token → Except String (List Expr × List Token)
  | 0, _, _ => .error "parser out of fuel"
  | fuel + 1, acc, ts =>
    if pcheck ts .comma then do
      let (_, ts₁) ← pconsume ts .comma
      if pcheck ts₁ .rparen then .ok (acc, ts₁)
      else do
        let (e, ts₂) ← parseBinExpr fuel 0 ts₁
        parseArgsLoop fuel (acc ++ [e]) ts₂
    else .ok (acc, ts)
termination_by structural fuelC _ _ => fuelC

/-- `Parser::parse_if`: condition, mandatory block, optional `else`
(block or nested `if` wrapped in a one-element block). -/
def parseIf : Nat → List Token → Except String (Expr × List Token)
  | 0, _ => .error "parser out of fuel"
  | fuel + 1, ts => do
    let (_, ts₁) ← pconsume ts .ifKw
    let (cond, ts₂) ← parseBinExpr fuel 0 ts₁
    let (blk, ts₃) ← parseBlock fuel ts₂
    if pcheck ts₃ .elseKw then do
      let (_, ts₄) ← pconsume ts₃ .elseKw
      if pcheck ts₄ .ifKw then do
        let (nested, ts₅) ← parseIf fuel ts₄
        .ok (.ifE cond blk (some [nested]), ts₅)
      else do
        let (eb, ts₅) ← parseBlock fuel ts₄
        .ok (.ifE cond blk (some eb), ts₅)
    else .ok (.ifE cond blk none, ts₃)
termination_by structural fuelC _ => fuelC

/-- `Parser::parse_block`: `{`, expressions with optional semicolons,
`}`. -/
def parseBlock : Nat → List Token → Except String (List Expr × List Token)
  | 0, _ => .error "parser out of fuel"
  | fuel + 1, ts => do
    let (_, ts₁) ← pconsume ts .lbrace
    parseBlockLoop fuel [] ts₁
termination_by structural fuelC _ => fuelC

/-- The statement loop of `parse_block`. -/
def parseBlockLoop : Nat → List Expr → List Token → Except String (List Expr × List Token)
  | 0, _, _ => .error "parser out of fuel"
  | fuel + 1, acc, ts =>
    if !pcheck ts .rbrace && !pcheck ts .eof then do
      let (e, ts₁) ← parseBinExpr fuel 0 ts
      let ts₂ := if pcheck ts₁ .semi then ts₁.drop 1 else ts₁
      parseBlockLoop fuel (acc ++ [e]) ts₂
    else do
      let (_, ts₁) ← pconsume ts .rbrace
      .ok (acc, ts₁)
termination_by structural fuelC _ _ => fuelC

/-- `Parser::parse_collection`: `[` then empty `]` or the entry loop. -/
def parseCollectionE : Nat → List Token → Except String (Expr × List Token)
  | 0, _ => .error "parser out of fuel"
  | fuel + 1, ts => do
    let (_, ts₁) ← pconsume ts .lbracket
    if pcheck ts₁ .rbracket then do
      let (_, ts₂) ← pconsume ts₁ .rbracket
      .ok (.collectionE [], ts₂)
    else parseCollectionLoop fuel [] 0 ts₁
termination_by structural fuelC _ => fuelC

/-- One entry of the collection-literal loop: a leading identifier is
peeked for `=` (string-keyed versus reference), otherwise a full
expression is parsed and a following `=` requires a string or number
literal key.  `idx` mirrors the (otherwise unused) running counter. -/
def parseCollectionLoop : Nat → List CEntry → Nat → List Token →
    Except String (Expr × List Token)
  | 0, _, _, _ => .error "parser out of fuel"
  | fuel + 1, entries, idx, ts =>
    if pcheck ts .ident then
      match ts with
      | t :: rest =>
        if pcheck rest .equals then do
          let (_, ts₁) ← pconsume rest .equals
          let (v, ts₂) ← parseBinExpr fuel 0 ts₁
          parseCollectionTail fuel (entries ++ [.keyed t.lexeme v]) idx ts₂
        else
          parseCollectionTail fuel (entries ++ [.indexed (.ident t.lexeme)]) (idx + 1) rest
      | [] => .error "unexpected eof"
    else do
      let (first, ts₁) ← parseBinExpr fuel 0 ts
      if pcheck ts₁ .equals then do
        let (_, ts₂) ← pconsume ts₁ .equals
        let (value, ts₃) ← parseBinExpr fuel 0 ts₂
        match first with
        | .str s => parseCollectionTail fuel (entries ++ [.keyed s value]) idx ts₃
        | .num n => parseCollectionTail fuel (entries ++ [.numKeyed n value]) idx ts₃
        | _ => .error "invalid key usage type for collection structure entry."
      else parseCollectionTail fuel (entries ++ [.indexed first]) (idx + 1) ts₁
termination_by structural fuelC _ _ _ => fuelC

/-- The separator handling at the bottom of the collection loop:
continue after `,`, stop at `]` (with trailing comma tolerated), error
otherwise. -/
def parseCollectionTail : Nat → List CEntry → Nat → List Token →
    Except String (Expr × List Token)
  | 0, _, _, _ => .error "parser out of fuel"
  | fuel + 1, entries, idx, ts =>
    if pcheck ts .comma then do
      let (_, ts₁) ← pconsume ts .comma
      if pcheck ts₁ .rbracket then do
        let (_, ts₂) ← pconsume ts₁ .rbracket
        .ok (.collectionE entries, ts₂)
      else parseCollectionLoop fuel entries idx ts₁
    else if pcheck ts .rbracket then do
      let (_, ts₁) ← pconsume ts .rbracket
      .ok (.collectionE entries, ts₁)
    else .error "expected ',' or ']' to terminate collection definition."

termination_by structural fuelC _ _ _ => fuelC
end

/-- `Parser::parse_expr`: binary-expression parsing at threshold 0. -/
def parseExpr (fuel : Nat) (ts : List Token) : Except String (Expr × List Token) :=
  parseBinExpr fuel 0 ts

/-! ### Theorems settling the claims -/

/-- C2: for every collection and every Number or String index value,
index access always succeeds, yielding `Nil` when the key is absent;
field access on an absent string key fails with an "undefined field"
error.  The Nil-on-miss versus error-on-miss asymmetry holds for all
collections. -/
theorem C2_index_nil_field_error :
    (∀ (c : CValue) (n : ℚ), ∃ v, execIdxAccessVal (.collection c) (.num n) = .ok v) ∧
    (∀ (c : CValue) (s : String), ∃ v, execIdxAccessVal (.collection c) (.str s) = .ok v) ∧
    (∀ (c : CValue) (n : ℚ), c.get (.index (f64ToUsize n)) = none →
      execIdxAccessVal (.collection c) (.num n) = .ok .nil) ∧
    (∀ (c : CValue) (s : String), c.get (.string s) = none →
      execIdxAccessVal (.collection c) (.str s) = .ok .nil) ∧
    (∀ (c : CValue) (f : String), c.getByString f = none →
      execFaVal (.collection c) f = .error ("undefined field '" ++ f ++ "'")) := by
  refine ⟨fun c n => ⟨_, rfl⟩, fun c s => ⟨_, rfl⟩, fun c n h => ?_, fun c s h => ?_,
    fun c f h => ?_⟩
  · simp [execIdxAccessVal, h]
  · simp [execIdxAccessVal, h]
  · simp [execFaVal, h]

/-- Witness for C2 at concrete inputs: the collection `[name = "ok"]`
read at index 3 (absent) yields `Nil`, while field access `.missing`
(absent) errors. -/
theorem C2_witness :
    (CValue.get (.mk [(.string "name", .str "ok")] 0) (.index (f64ToUsize 3)) = none) ∧
    execIdxAccessVal (.collection (.mk [(.string "name", .str "ok")] 0)) (.num 3) = .ok .nil ∧
    (CValue.getByString (.mk [(.string "name", .str "ok")] 0) "missing" = none) ∧
    execFaVal (.collection (.mk [(.string "name", .str "ok")] 0)) "missing"
      = .error ("undefined field '" ++ "missing" ++ "'") :=
  ⟨rfl, C2_index_nil_field_error.2.2.1 _ 3 rfl, rfl,
    C2_index_nil_field_error.2.2.2.2 _ "missing" rfl⟩

/-- C3: on Number operands, `/` and `%` fail if and only if the right
operand is exactly zero (producing an error instead of any numeric
result), and `+`, `-`, `*` and the nonzero cases of `/`, `%` return the
arithmetic result of the operation. -/
theorem C3_division_modulo_by_zero :
    (∀ l r : ℚ, execBinaryOpVal .div (.num l) (.num r)
      = if r = 0 then .error "division by zero" else .ok (.num (l / r))) ∧
    (∀ l r : ℚ, execBinaryOpVal .mod (.num l) (.num r)
      = if r = 0 then .error "modulo by zero" else .ok (.num (ratFmod l r))) ∧
    (∀ l r : ℚ, execBinaryOpVal .add (.num l) (.num r) = .ok (.num (l + r))) ∧
    (∀ l r : ℚ, execBinaryOpVal .sub (.num l) (.num r) = .ok (.num (l - r))) ∧
    (∀ l r : ℚ, execBinaryOpVal .mul (.num l) (.num r) = .ok (.num (l * r))) :=
  ⟨fun _ _ => rfl, fun _ _ => rfl, fun _ _ => rfl, fun _ _ => rfl, fun _ _ => rfl⟩

/-- C4: a condition value is falsy exactly when it is `Bool(false)`,
`Nil` or a collection with no entries; consequently
`if 0 { "a" } else { "b" }` evaluates to `"a"`,
`if [] { "a" } else { "b" }` evaluates to `"b"`, and an `if` with a
falsy condition and no else-block evaluates to `Nil`. -/
theorem C4_truthiness :
    (∀ v : Value, v.isTruthy = false ↔
      (v = .bool false ∨ v = .nil ∨ ∃ c : CValue, v = .collection c ∧ c.entries = [])) ∧
    (∀ (fuel : Nat) (st : Interp),
      evaluate (fuel + 2) st (.ifE (.num 0) [.str "a"] (some [.str "b"]))
        = (.ok (.str "a"), st)) ∧
    (∀ (fuel : Nat) (st : Interp),
      evaluate (fuel + 2) st (.ifE (.collectionE []) [.str "a"] (some [.str "b"]))
        = (.ok (.str "b"), st)) ∧
    (∀ (fuel : Nat) (st : Interp),
      evaluate (fuel + 2) st (.ifE (.collectionE []) [.str "a"] none)
        = (.ok .nil, st)) := by
  refine ⟨fun v => ?_, fun fuel st => rfl, fun fuel st => rfl, fun fuel st => rfl⟩
  cases v with
  | bool b => cases b <;> simp [Value.isTruthy]
  | collection c =>
    cases c with
    | mk es sz => cases es <;> simp [Value.isTruthy, CValue.entries]
  | num n => simp [Value.isTruthy]
  | str s => simp [Value.isTruthy]
  | nil => simp [Value.isTruthy]

/-- C6: on an array-like collection of size `s`, the `insert` method
with a Number key denoting index `i` errors out of bounds exactly when
`i > s` (in particular `i = s` is accepted), while raw `CValue::insert`
at `Index(i)` with `i ≥ s` grows `size` to `i + 1` (sparse growth). -/
theorem C6_insert_bounds :
    (∀ (c : CValue) (n : ℚ) (w : Value), c.isArrayLike = true →
      c.size < f64ToUsize n →
      Value.callMethod (.collection c) "insert" [.num n, w]
        = (.error ("index " ++ toString (f64ToUsize n) ++ " is out of bounds"),
           .collection c)) ∧
    (∀ (c : CValue) (n : ℚ) (w : Value), f64ToUsize n ≤ c.size →
      Value.callMethod (.collection c) "insert" [.num n, w]
        = (.ok .nil, .collection (c.insert (.index (f64ToUsize n)) w))) ∧
    (∀ (c : CValue) (w : Value), (c.insert (.index c.size) w).size = c.size + 1) ∧
    (∀ (c : CValue) (i : Nat) (w : Value), c.size ≤ i →
      (c.insert (.index i) w).size = i + 1) := by
  refine ⟨fun c n w h₁ h₂ => ?_, fun c n w h₂ => ?_, fun c w => ?_, fun c i w h => ?_⟩
  · simp [Value.callMethod, h₁, h₂]
  · simp [Value.callMethod, Nat.not_lt.mpr h₂]
  · simp [CValue.insert, CValue.size]
  · cases c with
    | mk es sz =>
      simp only [CValue.insert, CValue.size] at h ⊢
      simp [h]

/-- Witness for C6 at a concrete array `[1, 2, 3]`: inserting at index
4 errors, inserting at index 3 succeeds growing the size to 4, and raw
insertion at index 7 grows the size to 8. -/
theorem C6_witness :
    (CValue.isArrayLike (.mk [(.index 0, .num 1), (.index 1, .num 2), (.index 2, .num 3)] 3)
      = true) ∧
    (CValue.size (.mk [(.index 0, .num 1), (.index 1, .num 2), (.index 2, .num 3)] 3)
      < f64ToUsize 4) ∧
    Value.callMethod
        (.collection (.mk [(.index 0, .num 1), (.index 1, .num 2), (.index 2, .num 3)] 3))
        "insert" [.num 4, .num 9]
      = (.error ("index " ++ toString (f64ToUsize 4) ++ " is out of bounds"),
         .collection (.mk [(.index 0, .num 1), (.index 1, .num 2), (.index 2, .num 3)] 3)) ∧
    Value.callMethod
        (.collection (.mk [(.index 0, .num 1), (.index 1, .num 2), (.index 2, .num 3)] 3))
        "insert" [.num 3, .num 9]
      = (.ok .nil,
         .collection ((CValue.mk [(.index 0, .num 1), (.index 1, .num 2), (.index 2, .num 3)] 3).insert
           (.index (f64ToUsize 3)) (.num 9))) ∧
    ((CValue.mk [(.index 0, .num 1), (.index 1, .num 2), (.index 2, .num 3)] 3).insert
        (.index 7) (.num 9)).size = 7 + 1 :=
  ⟨rfl, by decide,
    C6_insert_bounds.1 _ 4 (.num 9) rfl (by decide),
    C6_insert_bounds.2.1 _ 3 (.num 9) (by decide),
    C6_insert_bounds.2.2.2 _ 7 (.num 9) (by decide)⟩

/-- C9: the literal `[1 = "first"]` builds a collection holding its one
entry under a `Number`-text key with positional size 0; every index
access or `get` call with a Number argument builds an `Index` key and
therefore yields `Nil`, and `size()` reports 1 through the entry-count
branch for non-array-like collections. -/
theorem C9_number_key_unreachable :
    (∀ (fuel : Nat) (st : Interp),
      evaluate (fuel + 2) st (.collectionE [.numKeyed 1 (.str "first")])
        = (.ok (.collection (.mk [(.number (numKeyStr 1), .str "first")] 0)), st)) ∧
    (numKeyStr 1 = "1") ∧
    (∀ n : ℚ,
      execIdxAccessVal (.collection (.mk [(.number (numKeyStr 1), .str "first")] 0)) (.num n)
        = .ok .nil) ∧
    (∀ n : ℚ,
      Value.callMethod (.collection (.mk [(.number (numKeyStr 1), .str "first")] 0))
          "get" [.num n]
        = (.ok .nil, .collection (.mk [(.number (numKeyStr 1), .str "first")] 0))) ∧
    (Value.callMethod (.collection (.mk [(.number (numKeyStr 1), .str "first")] 0)) "size" []
        = (.ok (.num 1), .collection (.mk [(.number (numKeyStr 1), .str "first")] 0))) ∧
    (CValue.isArrayLike (.mk [(.number (numKeyStr 1), .str "first")] 0) = false) := by
  refine ⟨fun fuel st => rfl, by decide, fun n => ?_, fun n => ?_, ?_, rfl⟩
  · simp [execIdxAccessVal, CValue.get, alLookup]
  · simp [Value.callMethod, CValue.get, alLookup]
  · rfl

/-- C10: a redeclaration through `val` and an assignment to an
undeclared name each fail before evaluating the right-hand side,
leaving the interpreter state (environment, registry and loaded-modules
set) exactly unchanged. -/
theorem C10_decl_assign_atomic_failure :
    (∀ (fuel : Nat) (st : Interp) (name : String) (value : Expr),
      containsStr st.vars name = true →
      evaluate (fuel + 1) st (.varDecl name value)
        = (.error ("variable '" ++ name ++ "' already defined!"), st)) ∧
    (∀ (fuel : Nat) (st : Interp) (name : String) (assignee : Expr),
      containsStr st.vars name = false →
      evaluate (fuel + 1) st (.assign name assignee)
        = (.error ("variable '" ++ name ++ "' not defined!"), st)) := by
  constructor
  · intro fuel st name value h
    simp [evaluate, h]
  · intro fuel st name assignee h
    simp [evaluate, h]

/-- Witness for C10: with only `x` defined, redeclaring `x` and
assigning to `y` both fail with the state unchanged. -/
theorem C10_witness :
    (containsStr (Interp.mk [] [("x", .nil)] []).vars "x" = true) ∧
    evaluate 5 (Interp.mk [] [("x", .nil)] []) (.varDecl "x" (.num 9))
      = (.error ("variable '" ++ "x" ++ "' already defined!"), Interp.mk [] [("x", .nil)] []) ∧
    (containsStr (Interp.mk [] [("x", .nil)] []).vars "y" = false) ∧
    evaluate 5 (Interp.mk [] [("x", .nil)] []) (.assign "y" (.num 9))
      = (.error ("variable '" ++ "y" ++ "' not defined!"), Interp.mk [] [("x", .nil)] []) :=
  ⟨rfl, C10_decl_assign_atomic_failure.1 4 _ "x" (.num 9) rfl, rfl,
    C10_decl_assign_atomic_failure.2 4 _ "y" (.num 9) rfl⟩

/-- C1: after the arguments evaluate, a method call whose receiver is a
bare identifier bound in the environment applies the method to the
variable's stored value and writes the (possibly mutated) value back
into the environment; with any other receiver expression the method
result is returned from a transient copy and the state is exactly the
one left by evaluating the receiver — no write-back occurs. -/
theorem C1_method_call_dispatch
    (fuel : Nat) (st st₁ : Interp) (args : List Expr) (vs : List Value) (method : String)
    (hargs : evalArgsWith (evaluate fuel) st args = (.ok vs, st₁)) :
    (∀ (id : String) (v r v' : Value),
      lookupStr st₁.vars id = some v →
      Value.callMethod v method vs = (.ok r, v') →
      evaluate (fuel + 1) st (.methodCall (.ident id) method args)
        = (.ok r, { st₁ with vars := insertStr id v' st₁.vars })) ∧
    (∀ (obj : Expr) (o : Value) (st₂ : Interp),
      (∀ n, obj ≠ .ident n) →
      evaluate fuel st₁ obj = (.ok o, st₂) →
      evaluate (fuel + 1) st (.methodCall obj method args)
        = ((Value.callMethod o method vs).1, st₂)) := by
  constructor
  · intro id v r v' hv hcall
    simp [evaluate, hargs, hv, hcall]
  · intro obj o st₂ hnotid hobj
    cases obj with
    | ident n => exact absurd rfl (hnotid n)
    | num n => simp [evaluate, hargs, hobj]
    | str s => simp [evaluate, hargs, hobj]
    | call m nm as => simp [evaluate, hargs, hobj]
    | varDecl nm v => simp [evaluate, hargs, hobj]
    | assign nm a => simp [evaluate, hargs, hobj]
    | binOp l r op => simp [evaluate, hargs, hobj]
    | unOp a op => simp [evaluate, hargs, hobj]
    | blockE es => simp [evaluate, hargs, hobj]
    | ifE c t e => simp [evaluate, hargs, hobj]
    | collectionE es => simp [evaluate, hargs, hobj]
    | idxAccess a b => simp [evaluate, hargs, hobj]
    | methodCall a m as => simp [evaluate, hargs, hobj]
    | includeE m => simp [evaluate, hargs, hobj]
    | fieldAccess a f => simp [evaluate, hargs, hobj]

/-- Witness for C1: pushing onto the variable `xs` writes the grown
collection back into the environment, while pushing onto a collection
literal leaves the environment untouched. -/
theorem C1_witness :
    (evalArgsWith (evaluate 2) (Interp.mk [] [("xs", .collection (.mk [] 0))] []) [.num 5]
      = (.ok [.num 5], Interp.mk [] [("xs", .collection (.mk [] 0))] [])) ∧
    (lookupStr (Interp.mk [] [("xs", .collection (.mk [] 0))] []).vars "xs"
      = some (.collection (.mk [] 0))) ∧
    (Value.callMethod (.collection (.mk [] 0)) "push" [.num 5]
      = (.ok .nil, .collection (.mk [(.index 0, .num 5)] 1))) ∧
    evaluate 3 (Interp.mk [] [("xs", .collection (.mk [] 0))] [])
        (.methodCall (.ident "xs") "push" [.num 5])
      = (.ok .nil,
         { Interp.mk [] [("xs", .collection (.mk [] 0))] [] with
             vars := insertStr "xs" (.collection (.mk [(.index 0, .num 5)] 1))
               (Interp.mk [] [("xs", .collection (.mk [] 0))] []).vars }) ∧
    (evaluate 2 (Interp.mk [] [("xs", .collection (.mk [] 0))] []) (.collectionE [])
      = (.ok (.collection (.mk [] 0)), Interp.mk [] [("xs", .collection (.mk [] 0))] [])) ∧
    evaluate 3 (Interp.mk [] [("xs", .collection (.mk [] 0))] [])
        (.methodCall (.collectionE []) "push" [.num 5])
      = ((Value.callMethod (.collection (.mk [] 0)) "push" [.num 5]).1,
         Interp.mk [] [("xs", .collection (.mk [] 0))] []) :=
  ⟨rfl, rfl, rfl,
    (C1_method_call_dispatch 2 _ _ [.num 5] [.num 5] "push" rfl).1 "xs"
      (.collection (.mk [] 0)) .nil (.collection (.mk [(.index 0, .num 5)] 1)) rfl rfl,
    rfl,
    (C1_method_call_dispatch 2 _ _ [.num 5] [.num 5] "push" rfl).2 (.collectionE [])
      (.collection (.mk [] 0)) _ (fun _ h => Expr.noConfusion h) rfl⟩

/-- C5 (failing input of the keyword-table claim): the keyword table
built by `Lexer::new` maps `val`, `if` and `else` but not `include`,
so lexing the input text `include` produces an `Ident` token, not an
include-keyword token.  (`src/parser.rs` nevertheless dispatches on a
`TokenType::Include` that the lexer never produces.) -/
theorem C5_include_lexes_as_ident :
    lookupKeyword "val" = some .val ∧
    lookupKeyword "if" = some .ifKw ∧
    lookupKeyword "else" = some .elseKw ∧
    lookupKeyword "include" = none ∧
    lexNext 8 (LexState.mk "include".toList 0)
      = (some (Token.mk .ident "include"), LexState.mk "include".toList 7) :=
  ⟨by decide, by decide, by decide, by decide, by decide⟩

/-- C7: the precedence table puts comparisons at tier 1, `+`/`-` at
tier 2 and `*`/`/`/`%` at tier 3; the binary-expression loop stops
without consuming a token that is not a binary operator of precedence
at least the current threshold; and consequently `a - b - c` parses
left-associated while `a + b * c` and `a == b + c` bind the higher tier
tighter. -/
theorem C7_precedence_climbing :
    (precedence .dblEquals = 1 ∧ precedence .lt = 1 ∧ precedence .gt = 1 ∧
     precedence .lte = 1 ∧ precedence .gte = 1 ∧ precedence .neq = 1 ∧
     precedence .add = 2 ∧ precedence .sub = 2 ∧
     precedence .mul = 3 ∧ precedence .div = 3 ∧ precedence .mod = 3) ∧
    (∀ (fuel minPrec : Nat) (left : Expr) (t : Token) (rest : List Token),
      (isBinop t.type && decide (precedence t.type ≥ minPrec)) = false →
      parseBinLoop (fuel + 1) minPrec left (t :: rest) = .ok (left, t :: rest)) ∧
    (∀ a b c : String,
      parseBinExpr 9 0 [Token.mk .ident a, Token.mk .sub "-", Token.mk .ident b,
          Token.mk .sub "-", Token.mk .ident c]
        = .ok (.binOp (.binOp (.ident a) (.ident b) .sub) (.ident c) .sub, [])) ∧
    (∀ a b c : String,
      parseBinExpr 9 0 [Token.mk .ident a, Token.mk .add "+", Token.mk .ident b,
          Token.mk .mul "*", Token.mk .ident c]
        = .ok (.binOp (.ident a) (.binOp (.ident b) (.ident c) .mul) .add, [])) ∧
    (∀ a b c : String,
      parseBinExpr 9 0 [Token.mk .ident a, Token.mk .dblEquals "==", Token.mk .ident b,
          Token.mk .add "+", Token.mk .ident c]
        = .ok (.binOp (.ident a) (.binOp (.ident b) (.ident c) .add) .dblEquals, [])) := by
  refine ⟨⟨rfl, rfl, rfl, rfl, rfl, rfl, rfl, rfl, rfl, rfl, rfl⟩,
    fun fuel minPrec left t rest h => ?_, fun a b c => rfl, fun a b c => rfl,
    fun a b c => rfl⟩
  simp [parseBinLoop, h]

/-- Witness for C7: the loop at threshold 0 stops at a right
parenthesis, which is not a binary operator. -/
theorem C7_witness :
    ((isBinop TokenType.rparen && decide (precedence TokenType.rparen ≥ 0)) = false) ∧
    parseBinLoop 1 0 (.ident "a") [Token.mk .rparen ")"]
      = .ok (.ident "a", [Token.mk .rparen ")"]) :=
  ⟨rfl, C7_precedence_climbing.2.1 0 0 (.ident "a") (Token.mk .rparen ")") [] rfl⟩

end Hexi
